import Mathlib

/-!
Shallow embedding of the `ahzs645/bootloader` repository:

* `src/src/App.tsx` — a Clover/tonymacx86-style boot picker: a config-driven
  theme list, two navigable rows (boot entries and actions), an options modal
  for switching themes, and keyboard handling (`handleKey`).  The file also
  contains a second, self-contained variant of `App` with hard-coded themes
  and the `moveEntries`/`moveActions` index helpers.
* `src/unnamed/part_000` — `XPBootScreen`: a timer-driven Windows-XP boot
  simulation with phases post → bootloader → boot → login → logging-in →
  desktop, a bootloader option list and a login user list.

JavaScript numbers are modelled as `Int` (indices may be `-1`, e.g. the result
of `Array.prototype.findIndex` on a miss), JS `%` as `Int.emod` (they agree on
a non-negative dividend and positive divisor, the only case exercised below),
optional string fields as `Option String`, and JS string truthiness
(`if (entry.url)`) as "present and non-empty".
-/

namespace Bootloader

/-- `list[i]` for a JS (possibly negative) index: `undefined` becomes `none`. -/
def listGetI (l : List α) (i : Int) : Option α :=
  if i < 0 then none else l.get? i.toNat

/-- `Array.prototype.findIndex`: index of the first match, `-1` if none. -/
def findIndexI (l : List α) (p : α → Bool) : Int :=
  match l.findIdx? p with
  | some i => (i : Int)
  | none => -1

/-- JS truthiness of an optional string field: `undefined`, missing and `''`
are falsy. -/
def jsTruthy : Option String → Bool
  | none => false
  | some s => s ≠ ""

/-! ## Config data model (`App.tsx` lines 4–38) -/

structure ConfigEntry where
  id : String
  name : String
  icon : String
  badge : Option String := none
  url : Option String := none
deriving Repr, DecidableEq

structure ConfigAction where
  id : String
  name : String
  icon : String
deriving Repr, DecidableEq

/-- The `type` field of a theme (`'builtin' | 'clover'`). -/
inductive ThemeType where
  | builtin
  | clover
deriving Repr, DecidableEq

structure ConfigTheme where
  id : String
  label : String
  ttype : ThemeType
  background : String
  logo : Option String := none
  entries : List ConfigEntry
  actions : List ConfigAction
deriving Repr, DecidableEq

structure Config where
  defaultTheme : String
  themes : List ConfigTheme
  cloverThemes : Option (List String) := none
deriving Repr, DecidableEq

/-- The style computed for a theme (`'classic' | 'modern' | 'clover'`). -/
inductive ThemeStyle where
  | classic
  | modern
  | clover
deriving Repr, DecidableEq

/-- Internal theme type with computed style (`Theme = ConfigTheme & {style}`). -/
structure Theme extends ConfigTheme where
  style : ThemeStyle
deriving Repr, DecidableEq

/-- `buildCloverTheme` (`App.tsx` lines 41–73): convert a Clover theme folder
name to a `Theme` object. -/
def buildCloverTheme (themeName : String) : Theme :=
  let basePath := "themes/" ++ themeName
  { id := "clover-" ++ themeName
    label := themeName
    ttype := .clover
    style := .clover
    background := basePath ++ "/background.png"
    logo := some (basePath ++ "/icons/logo.png")
    entries := [
      { id := "macos", name := "macOS",
        icon := basePath ++ "/icons/os_mac.icns", url := some "" },
      { id := "windows", name := "Windows",
        icon := basePath ++ "/icons/os_win.icns", url := some "" }]
    actions := [
      { id := "shell", name := "UEFI Shell", icon := basePath ++ "/icons/tool_shell.png" },
      { id := "clover", name := "Clover Config", icon := basePath ++ "/icons/func_clover.png" },
      { id := "about", name := "About Clover", icon := basePath ++ "/icons/func_about.png" },
      { id := "options", name := "Options", icon := basePath ++ "/icons/func_options.png" },
      { id := "reset", name := "Reset", icon := basePath ++ "/icons/func_reset.png" },
      { id := "shutdown", name := "Shutdown", icon := basePath ++ "/icons/func_shutdown.png" }] }

/-- `getThemeStyle` (`App.tsx` lines 76–80). -/
def getThemeStyle (t : ConfigTheme) : ThemeStyle :=
  if t.ttype = .clover then .clover
  else if t.id = "classic" then .classic
  else .modern

/-- The theme list built on a successful config load (`App.tsx` lines
100–109): the config's themes augmented with their computed style, followed
by one synthesized Clover theme per name in `cloverThemes` (treated as `[]`
when absent, mirroring `data.cloverThemes || []`). -/
def buildThemes (cfg : Config) : List Theme :=
  cfg.themes.map (fun t => { toConfigTheme := t, style := getThemeStyle t })
    ++ (cfg.cloverThemes.getD []).map buildCloverTheme

/-! ## App view state and keyboard handling (`App.tsx` lines 82–348) -/

/-- The keys the handlers inspect (`event.key`); every other key is `other`. -/
inductive Key where
  | arrowLeft
  | arrowRight
  | arrowUp
  | arrowDown
  | enter
  | escape
  | other
deriving Repr, DecidableEq

/-- `activeRow`: which of the two rows currently has the selection. -/
inductive Row where
  | entries
  | actions
deriving Repr, DecidableEq

/-- The `useState` cells of `App` (`App.tsx` lines 83–91). -/
structure AppState where
  config : Option Config
  themes : List Theme
  themeId : String
  selectedIndex : Int
  status : String
  activeRow : Row
  actionIndex : Int
  showOptions : Bool
  optionIndex : Int
deriving Repr, DecidableEq

/-- The initial values passed to `useState`. -/
def initialAppState : AppState :=
  { config := none, themes := [], themeId := "classic", selectedIndex := 0,
    status := "Loading...", activeRow := .entries, actionIndex := 0,
    showOptions := false, optionIndex := 0 }

/-- `themes.find((item) => item.id === themeId) ?? themes[0]` (line 128). -/
def currentTheme (s : AppState) : Option Theme :=
  (s.themes.find? (fun t => t.id = s.themeId)).orElse (fun _ => s.themes.head?)

/-- `theme?.entries ?? []` (line 129). -/
def entriesOf (s : AppState) : List ConfigEntry :=
  (currentTheme s).elim [] (·.entries)

/-- `theme?.actions ?? []` (line 130). -/
def actionsOf (s : AppState) : List ConfigAction :=
  (currentTheme s).elim [] (·.actions)

/-- The observable outcome of `bootEntry` (lines 154–163): the status it sets,
and the navigation it schedules — `some (500, url)` means a 500 ms `setTimeout`
that assigns `window.location.href = url`, `none` means no timer at all. -/
structure BootEffect where
  status : String
  nav : Option (Nat × String)
deriving Repr, DecidableEq

/-- `bootEntry` (lines 154–163); `if (entry.url)` is JS string truthiness. -/
def bootEntry (e : ConfigEntry) : BootEffect :=
  if jsTruthy e.url then
    { status := "Booting " ++ e.name ++ " ...", nav := some (500, e.url.getD "") }
  else
    { status := "Boot " ++ e.name ++ " (no URL configured)", nav := none }

/-- The reset-selection effect (lines 133–142), run when `themeId` or
`themes.length` changes: it bails out when no theme resolves, otherwise resets
both indices, activates the entries row and announces the first entry. -/
def resetSelectionEffect (s : AppState) : AppState :=
  match currentTheme s with
  | none => s
  | some t =>
    let s1 := { s with selectedIndex := 0, actionIndex := 0, activeRow := Row.entries }
    match t.entries.head? with
    | some e => { s1 with status := "Boot " ++ e.name }
    | none => s1

/-- The status effect (lines 145–151), run when `selectedIndex`, `activeRow`
or `themeId` changes: `entries[selectedIndex] ?? entries[0]`. -/
def statusEffect (s : AppState) : AppState :=
  match currentTheme s with
  | none => s
  | some t =>
    match (listGetI t.entries s.selectedIndex).orElse (fun _ => t.entries.head?) with
    | some e => if s.activeRow = Row.entries then { s with status := "Boot " ++ e.name } else s
    | none => s

/-- Opening the options modal (the `options` action, lines 227–229 and
302–304): `setShowOptions(true); setOptionIndex(themes.findIndex(...))`.
Note `findIndex` yields `-1` when `themeId` matches no theme. -/
def openOptions (s : AppState) : AppState :=
  { s with showOptions := true,
           optionIndex := findIndexI s.themes (fun t => t.id = s.themeId) }

/-- The options-modal branch of `handleKey` (lines 171–190); it `return`s,
so no other branch runs while the modal is open.  In the Enter branch JS
reads `themes[optionIndex].id`; when that element is `undefined` (only
possible for an out-of-range `optionIndex`) JS would throw, which we model as
leaving the state unchanged. -/
def handleKeyModal (s : AppState) : Key → AppState
  | .arrowUp =>
    { s with optionIndex :=
        (s.optionIndex - 1 + (s.themes.length : Int)) % (s.themes.length : Int) }
  | .arrowDown =>
    { s with optionIndex := (s.optionIndex + 1) % (s.themes.length : Int) }
  | .enter =>
    match listGetI s.themes s.optionIndex with
    | some t => { s with themeId := t.id, showOptions := false }
    | none => s
  | .escape => { s with showOptions := false }
  | _ => s

/-- The non-modal branches of `handleKey` (lines 192–234). -/
def handleKeyMain (s : AppState) : Key → AppState
  | .arrowLeft =>
    if s.activeRow = Row.entries then
      { s with selectedIndex :=
          (s.selectedIndex - 1 + ((entriesOf s).length : Int)) % ((entriesOf s).length : Int) }
    else
      { s with actionIndex :=
          (s.actionIndex - 1 + ((actionsOf s).length : Int)) % ((actionsOf s).length : Int) }
  | .arrowRight =>
    if s.activeRow = Row.entries then
      { s with selectedIndex := (s.selectedIndex + 1) % ((entriesOf s).length : Int) }
    else
      { s with actionIndex := (s.actionIndex + 1) % ((actionsOf s).length : Int) }
  | .arrowDown =>
    match listGetI (actionsOf s) s.actionIndex with
    | some a => { s with activeRow := Row.actions, status := a.name }
    | none => { s with activeRow := Row.actions }
  | .arrowUp =>
    match listGetI (entriesOf s) s.selectedIndex with
    | some e => { s with activeRow := Row.entries, status := "Boot " ++ e.name }
    | none => { s with activeRow := Row.entries }
  | .enter =>
    if s.activeRow = Row.entries then
      match listGetI (entriesOf s) s.selectedIndex with
      | some e => { s with status := (bootEntry e).status }
      | none => s
    else
      match listGetI (actionsOf s) s.actionIndex with
      | some a => if a.id = "options" then openOptions s else { s with status := a.name }
      | none => s
  | _ => s

/-- `handleKey` (lines 169–235). -/
def handleKey (s : AppState) (k : Key) : AppState :=
  if s.showOptions then handleKeyModal s k else handleKeyMain s k

/-- The navigation `handleKey` can schedule: Enter on an entry with a truthy
`url` is the only key path into `bootEntry`'s `setTimeout`. -/
def handleKeyNav (s : AppState) (k : Key) : Option (Nat × String) :=
  if s.showOptions = false ∧ k = Key.enter ∧ s.activeRow = Row.entries then
    match listGetI (entriesOf s) s.selectedIndex with
    | some e => (bootEntry e).nav
    | none => none
  else none

/-- Successful config load (lines 97–121): store the config, build the theme
list, apply the default theme id (`data.defaultTheme || 'classic'`, i.e. the
`'classic'` fallback fires on an empty string) and announce the default
theme's first entry. -/
def loadConfigSuccess (s : AppState) (data : Config) : AppState :=
  let allThemes := buildThemes data
  let defaultId := if data.defaultTheme = "" then "classic" else data.defaultTheme
  let s1 := { s with config := some data, themes := allThemes, themeId := defaultId }
  match ((allThemes.find? (fun t => t.id = defaultId)).orElse
          (fun _ => allThemes.head?)).bind (·.entries.head?) with
  | some e => { s1 with status := "Boot " ++ e.name }
  | none => s1

/-- The `.catch` branch of the config fetch (lines 122–125): only the status
message changes. -/
def loadConfigFailure (s : AppState) : AppState :=
  { s with status := "Failed to load config" }

/-- Outcome of the one-shot `fetch('config.json')` effect (lines 94–126). -/
def loadConfigResult (s : AppState) : Except String Config → AppState
  | .ok data => loadConfigSuccess s data
  | .error _ => loadConfigFailure s

/-- The UI events `App` reacts to.  Click events carry the index of the
rendered button, so a `clickEntry i` only exists for `i` below the row length
(enforced by a bounds guard in the step function below), and the two config
events deliver the result of the single fetch. -/
inductive AppEvent where
  | key (k : Key)
  | clickEntry (i : Nat)
  | dblClickEntry (i : Nat)
  | clickAction (i : Nat)
  | clickOption (i : Nat)
  | clickOverlay
  | configOk (data : Config)
  | configErr (msg : String)
deriving Repr, DecidableEq

/-- Whether an event is a keyboard or mouse event (as opposed to the config
fetch resolving). -/
def AppEvent.isUI : AppEvent → Bool
  | .configOk _ => false
  | .configErr _ => false
  | _ => true

/-- Run an update only when a theme resolves: the keyboard effect is only
attached when a theme resolves (`if (!theme) return`, line 167), and the
click targets only exist on the themed screen, so with no current theme every
UI event is a no-op. -/
def withTheme (s : AppState) (f : Theme → AppState) : AppState :=
  match currentTheme s with
  | none => s
  | some t => f t

/-- One event applied to the raw state, before React re-runs effects. -/
def appStepRaw (s : AppState) : AppEvent → AppState
  | .configOk data => loadConfigSuccess s data
  | .configErr _ => loadConfigFailure s
  | .key k => withTheme s (fun _ => handleKey s k)
  | .clickEntry i =>
    withTheme s (fun _ =>
      if i < (entriesOf s).length then
        { s with activeRow := Row.entries, selectedIndex := (i : Int) }
      else s)
  | .dblClickEntry i =>
    withTheme s (fun _ =>
      match (entriesOf s).get? i with
      | some e1 => { s with status := (bootEntry e1).status }
      | none => s)
  | .clickAction i =>
    withTheme s (fun _ =>
      match (actionsOf s).get? i with
      | some a =>
        if a.id = "options" then
          openOptions { s with activeRow := Row.actions, actionIndex := (i : Int),
                               status := a.name }
        else
          { s with activeRow := Row.actions, actionIndex := (i : Int),
                   status := a.name }
      | none => s)
  | .clickOption i =>
    withTheme s (fun _ =>
      match s.themes.get? i with
      | some t => { s with themeId := t.id, showOptions := false }
      | none => s)
  | .clickOverlay => withTheme s (fun _ => { s with showOptions := false })

/-- One event followed by the effect cascade: the reset-selection effect
re-runs when its deps `[themeId, themes.length]` changed, then the status
effect when its deps `[selectedIndex, activeRow, themeId]` changed relative to
the state before the event. -/
def appStep (s : AppState) (e : AppEvent) : AppState :=
  let s1 := appStepRaw s e
  let s2 := if s1.themeId ≠ s.themeId ∨ s1.themes.length ≠ s.themes.length then
              resetSelectionEffect s1
            else s1
  if s2.selectedIndex ≠ s.selectedIndex ∨ s2.activeRow ≠ s.activeRow ∨
      s2.themeId ≠ s.themeId then
    statusEffect s2
  else s2

/-- A whole run of the app from a state through a list of events. -/
def runApp (s : AppState) (evs : List AppEvent) : AppState :=
  evs.foldl appStep s

/-! ## The second `App` variant: `moveEntries` / `moveActions`
(`App.tsx` lines 517–529).  Both updaters are the same arithmetic on
`(current, delta, total)`; `moveEntries` applies it to `selectedIndex` with
`total = entries.length`, `moveActions` to `actionIndex` with
`total = actions.length`. -/

/-- `(current + delta + total) % total`, the body of `moveEntries` and
`moveActions`. -/
def moveIndex (current delta total : Int) : Int :=
  (current + delta + total) % total

/-! ## `XPBootScreen` (`src/unnamed/part_000`) -/

/-- `BootPhase` (line 4). -/
inductive BootPhase where
  | post
  | bootloader
  | boot
  | login
  | loggingIn
  | desktop
deriving Repr, DecidableEq

structure User where
  id : String
  name : String
  avatar : String
deriving Repr, DecidableEq

/-- `defaultUsers` (lines 12–15). -/
def defaultUsers : List User :=
  [{ id := "1", name := "Administrator", avatar := "xp/images/user/astronaut.png" },
   { id := "2", name := "Guest", avatar := "xp/images/user/butterfly.png" }]

/-- `bootOptions` (lines 42–46), as `(id, label)` pairs. -/
def bootOptions : List (String × String) :=
  [("start", "Start Windows XP"),
   ("safemode", "Safe Mode"),
   ("lastknown", "Last Known Good Configuration")]

/-- The `useState` cells of `XPBootScreen` that drive its behaviour
(lines 34–40).  `memoryCount` and `postLines` only feed the POST text
animation and are omitted: no transition or claim depends on them. -/
structure XPState where
  phase : BootPhase
  selectedUser : Option User
  loggingInUser : Option User
  bootloaderIndex : Int
  countdown : Int
deriving Repr, DecidableEq

def initialXPState : XPState :=
  { phase := .post, selectedUser := none, loggingInUser := none,
    bootloaderIndex := 0, countdown := 5 }

/-- `handleLogin` (lines 132–140) minus the 2000 ms `setTimeout` it schedules
(modelled as the `loginTimer` event and in the timer ledger below). -/
def handleLogin (s : XPState) (u : User) : XPState :=
  { s with loggingInUser := some u, phase := .loggingIn }

/-- `handleUserClick` (lines 143–149): a second click on the already-selected
user logs in; any other click selects. -/
def handleUserClick (s : XPState) (u : User) : XPState :=
  if (s.selectedUser.map (·.id)) = some u.id then handleLogin s u
  else { s with selectedUser := some u }

/-- `handleKeyDown` (lines 152–193).  `Escape` calls the parent's `onExit`
callback and changes no component state.  The bootloader and login branches
are guarded by the current phase. -/
def xpHandleKeyDown (users : List User) (s : XPState) (k : Key) : XPState :=
  if k = Key.escape then s
  else if s.phase = BootPhase.bootloader then
    match k with
    | .arrowUp =>
      { s with bootloaderIndex :=
          (s.bootloaderIndex - 1 + (bootOptions.length : Int)) % (bootOptions.length : Int) }
    | .arrowDown =>
      { s with bootloaderIndex := (s.bootloaderIndex + 1) % (bootOptions.length : Int) }
    | .enter => { s with phase := .boot }
    | _ => s
  else if s.phase = BootPhase.login then
    match k with
    | .arrowUp | .arrowDown =>
      let currentIndex : Int :=
        match s.selectedUser with
        | some u => findIndexI users (fun x => x.id = u.id)
        | none => -1
      let newIndex : Int :=
        if k = Key.arrowUp then
          if currentIndex ≤ 0 then (users.length : Int) - 1 else currentIndex - 1
        else
          if currentIndex ≥ (users.length : Int) - 1 then 0 else currentIndex + 1
      { s with selectedUser := listGetI users newIndex }
    | .enter =>
      match s.selectedUser with
      | some u => handleLogin s u
      | none => s
    | _ => s
  else s

/-- The events `XPBootScreen` reacts to.  Each timer event stands for the
callback of the timer scheduled under that name; the phase guards in the step
function reflect that each effect's timers are cleared by that effect's
cleanup when its phase is left (lines 96–100, 118, 127), and that the 2000 ms
timeout of `handleLogin` can only be pending while the component sits in the
`logging-in` phase it just entered (no handler leaves `logging-in` except this
timeout). -/
inductive XPEvent where
  | postTransitionTimer
  | memoryTick
  | addLinesTimer
  | countdownTick
  | bootTimer
  | loginTimer
  | key (k : Key)
  | clickBootOption (i : Nat)
  | clickUser (u : User)
deriving Repr, DecidableEq

/-- One step of the XP boot screen while mounted. -/
def xpStep (users : List User) (s : XPState) : XPEvent → XPState
  | .postTransitionTimer => if s.phase = BootPhase.post then { s with phase := .bootloader } else s
  | .memoryTick => s
  | .addLinesTimer => s
  | .countdownTick =>
    if s.phase = BootPhase.bootloader then
      if s.countdown ≤ 1 then { s with countdown := 0, phase := .boot }
      else { s with countdown := s.countdown - 1 }
    else s
  | .bootTimer => if s.phase = BootPhase.boot then { s with phase := .login } else s
  | .loginTimer => if s.phase = BootPhase.loggingIn then { s with phase := .desktop } else s
  | .key k => xpHandleKeyDown users s k
  | .clickBootOption i =>
    if s.phase = BootPhase.bootloader ∧ i < bootOptions.length then
      { s with bootloaderIndex := (i : Int), phase := .boot }
    else s
  | .clickUser u =>
    if s.phase = BootPhase.login ∨ s.phase = BootPhase.loggingIn then
      handleUserClick s u
    else s

/-- A whole run of the XP screen. -/
def runXP (users : List User) (s : XPState) (evs : List XPEvent) : XPState :=
  evs.foldl (xpStep users) s

/-- Position of a phase in the linear boot order. -/
def phaseRank : BootPhase → Nat
  | .post => 0
  | .bootloader => 1
  | .boot => 2
  | .login => 3
  | .loggingIn => 4
  | .desktop => 5

/-! ## Timer lifecycle of `XPBootScreen`

Every timer the component schedules, with the cleanup that cancels it:

* `memoryInterval`, `addLines`, `postTransition` — scheduled by the `post`
  effect (lines 66, 76, 92) and cleared by that effect's cleanup
  (lines 96–100);
* `countdownInterval` — scheduled by the `bootloader` effect (line 107),
  cleared by its cleanup (line 118);
* `bootTimeout` — scheduled by the `boot` effect (line 124), cleared by its
  cleanup (line 127);
* `loginTimeout` — the 2000 ms `setTimeout` inside `handleLogin` (line 136).
  It is scheduled by a plain callback, not an effect, and **no cleanup
  anywhere clears it**.

React runs an effect's cleanup when its deps change (here: on leaving the
phase) and on unmount; a `setTimeout` whose handle is never passed to
`clearTimeout` fires regardless of unmounting. -/

inductive TimerId where
  | memoryInterval
  | addLines
  | postTransition
  | countdownInterval
  | bootTimeout
  | loginTimeout
deriving Repr, DecidableEq

/-- The timers scheduled by the effect that runs in a given phase. -/
def effectTimers : BootPhase → List TimerId
  | .post => [.memoryInterval, .addLines, .postTransition]
  | .bootloader => [.countdownInterval]
  | .boot => [.bootTimeout]
  | _ => []

/-- Which timer a timer event stands for. -/
def timerId : XPEvent → Option TimerId
  | .postTransitionTimer => some .postTransition
  | .memoryTick => some .memoryInterval
  | .addLinesTimer => some .addLines
  | .countdownTick => some .countdownInterval
  | .bootTimer => some .bootTimeout
  | .loginTimer => some .loginTimeout
  | _ => none

/-- `setTimeout` timers leave the pending set once fired; `setInterval`
timers (`memoryInterval`, `countdownInterval`) keep firing until cleared. -/
def oneShot : TimerId → Bool
  | .memoryInterval => false
  | .countdownInterval => false
  | _ => true

/-- Does this event run `handleLogin`, and hence schedule the 2000 ms
`loginTimeout`?  Enter on the login screen with a selected user, or a click
on the already-selected user. -/
def schedulesLogin (s : XPState) : XPEvent → Bool
  | .key .enter => s.phase = BootPhase.login ∧ s.selectedUser.isSome
  | .clickUser u =>
    (s.phase = BootPhase.login ∨ s.phase = BootPhase.loggingIn) ∧
      (s.selectedUser.map (·.id)) = some u.id
  | _ => false

/-- Component lifecycle state: the view state, the pending timers, and
whether some timer callback has already fired after unmount (a stale
transition: its `setPhase` hits an unmounted component). -/
structure XPLife where
  mounted : Bool
  xp : XPState
  pending : List TimerId
  staleFire : Bool
deriving Repr, DecidableEq

/-- Mounting runs the `post` effect, scheduling its three timers. -/
def initialXPLife : XPLife :=
  { mounted := true, xp := initialXPState,
    pending := effectTimers BootPhase.post, staleFire := false }

inductive LifeEvent where
  | ev (e : XPEvent)
  | unmount
deriving Repr, DecidableEq

/-- Remove from `pending` the timers cancelled when the effects of phase `p`
are cleaned up, then add the timers scheduled by the effects of the phase
being entered. -/
def rescheduleForPhase (pending : List TimerId) (p q : BootPhase) : List TimerId :=
  (pending.filter (fun t => ¬ t ∈ effectTimers p)) ++ effectTimers q

/-- One lifecycle step.  A timer event only does anything while its timer is
pending; if it is still pending after unmount, its callback runs anyway and
performs a stale update. -/
def lifeStep (users : List User) (l : XPLife) : LifeEvent → XPLife
  | .unmount =>
    if l.mounted then
      { l with mounted := false,
               pending := l.pending.filter (fun t => ¬ t ∈ effectTimers l.xp.phase) }
    else l
  | .ev e =>
    match timerId e with
    | some t =>
      if t ∈ l.pending then
        let pending1 := if oneShot t then l.pending.erase t else l.pending
        if l.mounted then
          let s1 := xpStep users l.xp e
          let pending2 :=
            if s1.phase ≠ l.xp.phase then rescheduleForPhase pending1 l.xp.phase s1.phase
            else pending1
          { l with xp := s1, pending := pending2 }
        else
          { l with pending := pending1, staleFire := true }
      else l
    | none =>
      if l.mounted then
        let s1 := xpStep users l.xp e
        let pending1 :=
          if schedulesLogin l.xp e then l.pending ++ [TimerId.loginTimeout] else l.pending
        let pending2 :=
          if s1.phase ≠ l.xp.phase then rescheduleForPhase pending1 l.xp.phase s1.phase
          else pending1
        { l with xp := s1, pending := pending2 }
      else l

/-- A whole lifecycle run. -/
def runLife (users : List User) (l : XPLife) (evs : List LifeEvent) : XPLife :=
  evs.foldl (lifeStep users) l

/-! ## Claim-side definitions (from the spec's words, for comparison) -/

/-- The spec's `(index, length, key) -> newIndex` function for the arrow key
toward the previous item: `(i - 1 + n) mod n`. -/
def specPrevIndex (i n : Int) : Int := (i - 1 + n) % n

/-- The spec's `(index, length, key) -> newIndex` function for the arrow key
toward the next item: `(i + 1) mod n`. -/
def specNextIndex (i n : Int) : Int := (i + 1) % n

/-- Claim-side theme style: clover if type is `'clover'`, classic if id is
`'classic'`, otherwise modern. -/
def claimThemeStyle (t : ConfigTheme) : ThemeStyle :=
  if t.ttype = .clover then .clover
  else if t.id = "classic" then .classic
  else .modern

/-- Claim-side theme list: the config's themes, each augmented with its
computed style, followed in order by one synthesized Clover theme per name in
the optional `cloverThemes` list — none when that list is absent. -/
def claimThemes (cfg : Config) : List Theme :=
  cfg.themes.map (fun t => { toConfigTheme := t, style := claimThemeStyle t })
    ++ (match cfg.cloverThemes with
        | none => []
        | some names => names.map buildCloverTheme)

/-- The five-element phase sequence named by the claim (which omits the
code's `logging-in` phase). -/
def claimedPhaseOrder : List BootPhase :=
  [.post, .bootloader, .boot, .login, .desktop]

/-! ## Invariants -/

/-- Every theme in the list has a nonempty entries row and a nonempty actions
row. -/
def rowsNonempty (ts : List Theme) : Prop :=
  ∀ t ∈ ts, t.entries ≠ [] ∧ t.actions ≠ []

/-- Each selection index sits in `[0, length of its row)`. -/
def indicesInRange (s : AppState) : Prop :=
  (0 ≤ s.selectedIndex ∧ s.selectedIndex < ((entriesOf s).length : Int)) ∧
  (0 ≤ s.actionIndex ∧ s.actionIndex < ((actionsOf s).length : Int)) ∧
  (0 ≤ s.optionIndex ∧ s.optionIndex < ((s.themes.length : Nat) : Int))

/-- The current theme id names a theme of the list (so `findIndex` cannot
return `-1`). -/
def themeIdValid (s : AppState) : Prop :=
  ∃ t ∈ s.themes, t.id = s.themeId

/-- The inductive invariant of the `App` state machine. -/
def appInv (s : AppState) : Prop :=
  s.themes ≠ [] ∧ rowsNonempty s.themes ∧ themeIdValid s ∧ indicesInRange s

/-- The default theme id applied on load: `data.defaultTheme || 'classic'`. -/
def defaultIdOf (cfg : Config) : String :=
  if cfg.defaultTheme = "" then "classic" else cfg.defaultTheme

/-! ## Concrete example inputs used by counterexamples and witnesses -/

/-- A config whose only theme is one synthesized Clover theme and whose
`defaultTheme` id does occur in the built list. -/
def exCfg : Config :=
  { defaultTheme := "clover-t", themes := [], cloverThemes := some ["t"] }

/-- A config whose `defaultTheme` names no theme of the built list. -/
def badCfg : Config :=
  { defaultTheme := "missing", themes := [], cloverThemes := some ["t"] }

/-- The app state right after `exCfg` loads successfully. -/
def exLoaded : AppState := appStep initialAppState (.configOk exCfg)

/-- `exLoaded` with the options modal open on option 0. -/
def exModal : AppState := { exLoaded with showOptions := true, optionIndex := 0 }

/-- `exLoaded` with the actions row active. -/
def exActions : AppState := { exLoaded with activeRow := Row.actions }

/-- The first entry synthesized by `buildCloverTheme "t"`. -/
def cloverEntry0 : ConfigEntry :=
  { id := "macos", name := "macOS", icon := "themes/t/icons/os_mac.icns",
    url := some "" }

/-- `initialXPState` advanced to the bootloader phase. -/
def exBootloader : XPState := { initialXPState with phase := .bootloader }

/-- The XP login screen with the first default user selected. -/
def exLogin : XPState :=
  { phase := .login,
    selectedUser := some { id := "1", name := "Administrator",
                           avatar := "xp/images/user/astronaut.png" },
    loggingInUser := none, bootloaderIndex := 0, countdown := 0 }

/-- The lifecycle trace that leaves `loginTimeout` pending across an unmount:
POST expires, Enter boots past the bootloader, the boot timer lands on the
login screen, Down selects a user, Enter starts logging in (scheduling the
2000 ms timeout), the component unmounts, and the timeout then fires. -/
def staleTrace : List LifeEvent :=
  [.ev .postTransitionTimer, .ev (.key .enter), .ev .bootTimer,
   .ev (.key .arrowDown), .ev (.key .enter), .unmount, .ev .loginTimer]

/-! ## Helper lemmas -/

theorem emod_bounds {n : Int} (a : Int) (hn : 0 < n) : 0 ≤ a % n ∧ a % n < n :=
  ⟨Int.emod_nonneg a (ne_of_gt hn), Int.emod_lt_of_pos a hn⟩

theorem findIndexI_of_exists {l : List α} {p : α → Bool} (h : ∃ x ∈ l, p x = true) :
    0 ≤ findIndexI l p ∧ findIndexI l p < (l.length : Int) := by
  have hlt : l.findIdx p < l.length := List.findIdx_lt_length_of_exists h
  have : l.findIdx? p = some (l.findIdx p) :=
    List.findIdx?_eq_some_iff_findIdx_eq.mpr ⟨hlt, rfl⟩
  simp only [findIndexI, this]
  exact ⟨Int.ofNat_nonneg _, by exact_mod_cast hlt⟩

theorem listGetI_isSome {l : List α} {i : Int} (h0 : 0 ≤ i)
    (hl : i < (l.length : Int)) : ∃ x, listGetI l i = some x := by
  have hi : i.toNat < l.length := by omega
  simp only [listGetI, if_neg (by omega : ¬ i < 0)]
  exact List.get?_eq_get hi ▸ ⟨_, rfl⟩

theorem listGetI_mem {l : List α} {i : Int} {x : α}
    (h : listGetI l i = some x) : x ∈ l := by
  simp only [listGetI] at h
  split at h
  · exact absurd h (by simp)
  · exact List.get?_mem h

/-! ## Claim C1 -/

/-- C1: for every navigable row of length `n > 0` and in-bounds index `i`,
the arrow key toward the previous item sets the index to `(i - 1 + n) mod n`
and the one toward the next item to `(i + 1) mod n` — for the Clover entries
and actions rows (Left/Right), the options modal list (Up/Down), the XP
bootloader option list (Up/Down), and the `moveEntries`/`moveActions`
updaters, all matching the spec's `(index, length, key) -> newIndex`
functions. -/
theorem c1_arrow_wraparound
    (s : AppState) (hm : s.showOptions = true)
    (hn1 : 0 < (s.themes.length : Int))
    (hi1 : 0 ≤ s.optionIndex ∧ s.optionIndex < (s.themes.length : Int))
    (s2 : AppState) (h2m : s2.showOptions = false) (h2r : s2.activeRow = Row.entries)
    (hn2 : 0 < ((entriesOf s2).length : Int))
    (hi2 : 0 ≤ s2.selectedIndex ∧ s2.selectedIndex < ((entriesOf s2).length : Int))
    (s3 : AppState) (h3m : s3.showOptions = false) (h3r : s3.activeRow = Row.actions)
    (hn3 : 0 < ((actionsOf s3).length : Int))
    (hi3 : 0 ≤ s3.actionIndex ∧ s3.actionIndex < ((actionsOf s3).length : Int))
    (users : List User) (x : XPState) (hx : x.phase = BootPhase.bootloader)
    (hix : 0 ≤ x.bootloaderIndex ∧ x.bootloaderIndex < (bootOptions.length : Int))
    (i n : Int) (hn : 0 < n) (hi : 0 ≤ i ∧ i < n) :
    (handleKey s .arrowUp).optionIndex = specPrevIndex s.optionIndex s.themes.length ∧
    (handleKey s .arrowDown).optionIndex = specNextIndex s.optionIndex s.themes.length ∧
    (handleKey s2 .arrowLeft).selectedIndex =
      specPrevIndex s2.selectedIndex (entriesOf s2).length ∧
    (handleKey s2 .arrowRight).selectedIndex =
      specNextIndex s2.selectedIndex (entriesOf s2).length ∧
    (handleKey s3 .arrowLeft).actionIndex =
      specPrevIndex s3.actionIndex (actionsOf s3).length ∧
    (handleKey s3 .arrowRight).actionIndex =
      specNextIndex s3.actionIndex (actionsOf s3).length ∧
    (xpHandleKeyDown users x .arrowUp).bootloaderIndex =
      specPrevIndex x.bootloaderIndex bootOptions.length ∧
    (xpHandleKeyDown users x .arrowDown).bootloaderIndex =
      specNextIndex x.bootloaderIndex bootOptions.length ∧
    moveIndex i (-1) n = specPrevIndex i n ∧
    moveIndex i 1 n = specNextIndex i n := by
  refine ⟨?_, ?_, ?_, ?_, ?_, ?_, ?_, ?_, ?_, ?_⟩ <;>
    simp [handleKey, handleKeyModal, handleKeyMain, xpHandleKeyDown,
          hm, h2m, h2r, h3m, h3r, hx, specPrevIndex, specNextIndex, moveIndex] <;>
    first
      | ring_nf
      | rw [Int.add_emod_right]

theorem c1_arrow_wraparound_witness :
    (exModal.showOptions = true ∧ 0 < (exModal.themes.length : Int) ∧
     (0 ≤ exModal.optionIndex ∧ exModal.optionIndex < (exModal.themes.length : Int)) ∧
     exLoaded.showOptions = false ∧ exLoaded.activeRow = Row.entries ∧
     0 < ((entriesOf exLoaded).length : Int) ∧
     (0 ≤ exLoaded.selectedIndex ∧
       exLoaded.selectedIndex < ((entriesOf exLoaded).length : Int)) ∧
     exActions.showOptions = false ∧ exActions.activeRow = Row.actions ∧
     0 < ((actionsOf exActions).length : Int) ∧
     (0 ≤ exActions.actionIndex ∧
       exActions.actionIndex < ((actionsOf exActions).length : Int)) ∧
     exBootloader.phase = BootPhase.bootloader ∧
     (0 ≤ exBootloader.bootloaderIndex ∧
       exBootloader.bootloaderIndex < (bootOptions.length : Int)) ∧
     (0 : Int) < 5 ∧ ((0 : Int) ≤ 2 ∧ (2 : Int) < 5)) ∧
    ((handleKey exModal .arrowUp).optionIndex =
      specPrevIndex exModal.optionIndex exModal.themes.length ∧
     (handleKey exModal .arrowDown).optionIndex =
      specNextIndex exModal.optionIndex exModal.themes.length ∧
     (handleKey exLoaded .arrowLeft).selectedIndex =
      specPrevIndex exLoaded.selectedIndex (entriesOf exLoaded).length ∧
     (handleKey exLoaded .arrowRight).selectedIndex =
      specNextIndex exLoaded.selectedIndex (entriesOf exLoaded).length ∧
     (handleKey exActions .arrowLeft).actionIndex =
      specPrevIndex exActions.actionIndex (actionsOf exActions).length ∧
     (handleKey exActions .arrowRight).actionIndex =
      specNextIndex exActions.actionIndex (actionsOf exActions).length ∧
     (xpHandleKeyDown defaultUsers exBootloader .arrowUp).bootloaderIndex =
      specPrevIndex exBootloader.bootloaderIndex bootOptions.length ∧
     (xpHandleKeyDown defaultUsers exBootloader .arrowDown).bootloaderIndex =
      specNextIndex exBootloader.bootloaderIndex bootOptions.length ∧
     moveIndex 2 (-1) 5 = specPrevIndex 2 5 ∧
     moveIndex 2 1 5 = specNextIndex 2 5) :=
  ⟨by decide,
   c1_arrow_wraparound exModal (by decide) (by decide) (by decide)
     exLoaded (by decide) (by decide) (by decide) (by decide)
     exActions (by decide) (by decide) (by decide) (by decide)
     defaultUsers exBootloader (by decide) (by decide)
     2 5 (by decide) (by decide)⟩

/-! ## Claim C7 -/

/-- C7: on a successful load the built theme list equals the config's themes
augmented with their computed style (clover if type is `'clover'`, classic if
id is `'classic'`, otherwise modern), followed in order by one synthesized
Clover theme per name in the optional `cloverThemes` list (none when absent);
each synthesized theme has id `'clover-' + name`, label equal to the name,
two entries (macOS, Windows) and six actions. -/
theorem c7_build_theme_list (cfg : Config) (name : String) :
    buildThemes cfg = claimThemes cfg ∧
    (∀ t : ConfigTheme, getThemeStyle t = claimThemeStyle t) ∧
    (buildCloverTheme name).id = "clover-" ++ name ∧
    (buildCloverTheme name).label = name ∧
    (buildCloverTheme name).entries.map (·.name) = ["macOS", "Windows"] ∧
    (buildCloverTheme name).entries.length = 2 ∧
    (buildCloverTheme name).actions.length = 6 := by
  refine ⟨?_, fun t => rfl, rfl, rfl, rfl, rfl, rfl⟩
  cases h : cfg.cloverThemes <;>
    simp [buildThemes, claimThemes, h] <;>
    exact fun a _ => rfl

/-! ## Claim C8 -/

/-- C8: the keyboard index-update functions are pure and deterministic — two
runs on equal `(index, delta/key, length)` inputs yield equal results, both
for the `moveEntries`/`moveActions` arithmetic and for the whole key
handler. -/
theorem c8_pure_deterministic
    (i1 d1 n1 i2 d2 n2 : Int) (hi : i1 = i2) (hd : d1 = d2) (hn : n1 = n2)
    (s1 s2 : AppState) (k1 k2 : Key) (hs : s1 = s2) (hk : k1 = k2) :
    moveIndex i1 d1 n1 = moveIndex i2 d2 n2 ∧
    handleKey s1 k1 = handleKey s2 k2 := by
  subst hi; subst hd; subst hn; subst hs; subst hk
  exact ⟨rfl, rfl⟩

theorem c8_pure_deterministic_witness :
    ((3 : Int) = 3 ∧ (1 : Int) = 1 ∧ (7 : Int) = 7 ∧
      exLoaded = exLoaded ∧ Key.arrowRight = Key.arrowRight) ∧
    (moveIndex 3 1 7 = moveIndex 3 1 7 ∧
      handleKey exLoaded .arrowRight = handleKey exLoaded .arrowRight) :=
  ⟨⟨rfl, rfl, rfl, rfl, rfl⟩,
   c8_pure_deterministic 3 1 7 3 1 7 rfl rfl rfl
     exLoaded exLoaded .arrowRight .arrowRight rfl rfl⟩

/-! ## Claim C10 -/

/-- C10: every entry synthesized by `buildCloverTheme` has the empty-string
url, so confirming it runs `bootEntry`'s no-URL branch: the status becomes
`Boot <name> (no URL configured)`, no timer is scheduled, no navigation
happens, and the rest of the state is untouched. -/
theorem c10_clover_entries_no_url (name : String) (e : ConfigEntry)
    (he : e ∈ (buildCloverTheme name).entries) :
    (e.url = some "" ∧
      bootEntry e =
        { status := "Boot " ++ e.name ++ " (no URL configured)", nav := none }) ∧
    (∀ s : AppState, s.showOptions = false → s.activeRow = Row.entries →
      listGetI (entriesOf s) s.selectedIndex = some e →
      handleKey s .enter =
          { s with status := "Boot " ++ e.name ++ " (no URL configured)" } ∧
        handleKeyNav s .enter = none) := by
  have hurl : e.url = some "" := by
    simp only [buildCloverTheme, List.mem_cons, List.not_mem_nil, or_false] at he
    rcases he with rfl | rfl <;> rfl
  have hbe : bootEntry e =
      { status := "Boot " ++ e.name ++ " (no URL configured)", nav := none } := by
    simp [bootEntry, jsTruthy, hurl]
  refine ⟨⟨hurl, hbe⟩, fun s hm hr hg => ⟨?_, ?_⟩⟩
  · simp [handleKey, handleKeyMain, hm, hr, hg, hbe]
  · simp [handleKeyNav, hm, hr, hg, hbe]

theorem c10_clover_entries_no_url_witness :
    (cloverEntry0 ∈ (buildCloverTheme "t").entries ∧
      exLoaded.showOptions = false ∧ exLoaded.activeRow = Row.entries ∧
      listGetI (entriesOf exLoaded) exLoaded.selectedIndex = some cloverEntry0) ∧
    (cloverEntry0.url = some "" ∧
      bootEntry cloverEntry0 =
        { status := "Boot macOS (no URL configured)", nav := none }) ∧
    (handleKey exLoaded .enter =
        { exLoaded with status := "Boot macOS (no URL configured)" } ∧
      handleKeyNav exLoaded .enter = none) :=
  ⟨by decide,
   (c10_clover_entries_no_url "t" cloverEntry0 (by decide)).1,
   (c10_clover_entries_no_url "t" cloverEntry0 (by decide)).2 exLoaded
     (by decide) (by decide) (by decide)⟩

/-! ## Claim C2 -/

/-- C2 as stated is false: pressing ArrowDown while the entries row is active
does not move the selection within that row — it leaves both selection
indices unchanged and switches the active row to the actions row
(`App.tsx` lines 208–213). -/
theorem c2_counterexample :
    exLoaded.showOptions = false ∧ exLoaded.activeRow = Row.entries ∧
    (handleKey exLoaded .arrowDown).activeRow = Row.actions ∧
    (handleKey exLoaded .arrowDown).selectedIndex = exLoaded.selectedIndex ∧
    (handleKey exLoaded .arrowDown).actionIndex = exLoaded.actionIndex := by
  decide

/-- C2 amended: while the modal is closed, Left/Right move the selection
within the active row (with wraparound) and do not change which row is
active; ArrowDown activates the actions row and ArrowUp the entries row,
each leaving both selection indices unchanged. -/
theorem c2_arrow_keys_rows (s : AppState) (hm : s.showOptions = false) :
    ((handleKey s .arrowLeft).activeRow = s.activeRow ∧
      (handleKey s .arrowRight).activeRow = s.activeRow) ∧
    (s.activeRow = Row.entries →
      handleKey s .arrowLeft =
          { s with selectedIndex := specPrevIndex s.selectedIndex (entriesOf s).length } ∧
        handleKey s .arrowRight =
          { s with selectedIndex := specNextIndex s.selectedIndex (entriesOf s).length }) ∧
    (s.activeRow = Row.actions →
      handleKey s .arrowLeft =
          { s with actionIndex := specPrevIndex s.actionIndex (actionsOf s).length } ∧
        handleKey s .arrowRight =
          { s with actionIndex := specNextIndex s.actionIndex (actionsOf s).length }) ∧
    ((handleKey s .arrowDown).activeRow = Row.actions ∧
      (handleKey s .arrowDown).selectedIndex = s.selectedIndex ∧
      (handleKey s .arrowDown).actionIndex = s.actionIndex) ∧
    ((handleKey s .arrowUp).activeRow = Row.entries ∧
      (handleKey s .arrowUp).selectedIndex = s.selectedIndex ∧
      (handleKey s .arrowUp).actionIndex = s.actionIndex) := by
  refine ⟨⟨?_, ?_⟩, fun hr => ⟨?_, ?_⟩, fun hr => ⟨?_, ?_⟩, ?_, ?_⟩
  · cases hr : s.activeRow <;> simp [handleKey, handleKeyMain, hm, hr]
  · cases hr : s.activeRow <;> simp [handleKey, handleKeyMain, hm, hr]
  · simp [handleKey, handleKeyMain, hm, hr, specPrevIndex]
  · simp [handleKey, handleKeyMain, hm, hr, specNextIndex]
  · simp [handleKey, handleKeyMain, hm, hr, specPrevIndex]
  · simp [handleKey, handleKeyMain, hm, hr, specNextIndex]
  · cases hg : listGetI (actionsOf s) s.actionIndex <;>
      simp [handleKey, handleKeyMain, hm, hg]
  · cases hg : listGetI (entriesOf s) s.selectedIndex <;>
      simp [handleKey, handleKeyMain, hm, hg]

theorem c2_arrow_keys_rows_witness :
    exLoaded.showOptions = false ∧
    (((handleKey exLoaded .arrowLeft).activeRow = exLoaded.activeRow ∧
       (handleKey exLoaded .arrowRight).activeRow = exLoaded.activeRow) ∧
     (exLoaded.activeRow = Row.entries →
       handleKey exLoaded .arrowLeft =
           { exLoaded with selectedIndex :=
               specPrevIndex exLoaded.selectedIndex (entriesOf exLoaded).length } ∧
         handleKey exLoaded .arrowRight =
           { exLoaded with selectedIndex :=
               specNextIndex exLoaded.selectedIndex (entriesOf exLoaded).length }) ∧
     (exLoaded.activeRow = Row.actions →
       handleKey exLoaded .arrowLeft =
           { exLoaded with actionIndex :=
               specPrevIndex exLoaded.actionIndex (actionsOf exLoaded).length } ∧
         handleKey exLoaded .arrowRight =
           { exLoaded with actionIndex :=
               specNextIndex exLoaded.actionIndex (actionsOf exLoaded).length }) ∧
     ((handleKey exLoaded .arrowDown).activeRow = Row.actions ∧
       (handleKey exLoaded .arrowDown).selectedIndex = exLoaded.selectedIndex ∧
       (handleKey exLoaded .arrowDown).actionIndex = exLoaded.actionIndex) ∧
     ((handleKey exLoaded .arrowUp).activeRow = Row.entries ∧
       (handleKey exLoaded .arrowUp).selectedIndex = exLoaded.selectedIndex ∧
       (handleKey exLoaded .arrowUp).actionIndex = exLoaded.actionIndex)) :=
  ⟨by decide, c2_arrow_keys_rows exLoaded (by decide)⟩

/-! ## Claim C5 -/

/-- C5: with the options modal open, Enter sets the current theme to the one
highlighted by the option index and closes the modal, Escape closes the
modal, and arrow keys change nothing but the option index (Up/Down step it
with wraparound; Left/Right do nothing). -/
theorem c5_options_modal (s : AppState) (hm : s.showOptions = true)
    (t : Theme) (ht : listGetI s.themes s.optionIndex = some t) :
    ((handleKey s .enter).themeId = t.id ∧
      (handleKey s .enter).showOptions = false) ∧
    handleKey s .escape = { s with showOptions := false } ∧
    handleKey s .arrowUp =
      { s with optionIndex := specPrevIndex s.optionIndex s.themes.length } ∧
    handleKey s .arrowDown =
      { s with optionIndex := specNextIndex s.optionIndex s.themes.length } ∧
    handleKey s .arrowLeft = s ∧ handleKey s .arrowRight = s := by
  refine ⟨⟨?_, ?_⟩, ?_, ?_, ?_, ?_, ?_⟩ <;>
    simp [handleKey, handleKeyModal, hm, ht, specPrevIndex, specNextIndex]

theorem c5_options_modal_witness :
    (exModal.showOptions = true ∧
      listGetI exModal.themes exModal.optionIndex = some (buildCloverTheme "t")) ∧
    (((handleKey exModal .enter).themeId = (buildCloverTheme "t").id ∧
       (handleKey exModal .enter).showOptions = false) ∧
     handleKey exModal .escape = { exModal with showOptions := false } ∧
     handleKey exModal .arrowUp =
       { exModal with optionIndex :=
           specPrevIndex exModal.optionIndex exModal.themes.length } ∧
     handleKey exModal .arrowDown =
       { exModal with optionIndex :=
           specNextIndex exModal.optionIndex exModal.themes.length } ∧
     handleKey exModal .arrowLeft = exModal ∧
     handleKey exModal .arrowRight = exModal) :=
  ⟨⟨by decide, by decide⟩,
   c5_options_modal exModal (by decide) (buildCloverTheme "t") (by decide)⟩

/-! ## Claim C3 -/

theorem phase_conj_self (s x : XPState) (hx : x.phase = s.phase) :
    phaseRank s.phase ≤ phaseRank x.phase ∧
      (x.phase ≠ s.phase → phaseRank s.phase < phaseRank x.phase) := by
  rw [hx]
  exact ⟨le_rfl, fun h => absurd rfl h⟩

theorem phase_conj_jump (s x : XPState)
    (hp : phaseRank s.phase < phaseRank x.phase) :
    phaseRank s.phase ≤ phaseRank x.phase ∧
      (x.phase ≠ s.phase → phaseRank s.phase < phaseRank x.phase) :=
  ⟨le_of_lt hp, fun _ => hp⟩

theorem xpHandleKeyDown_phase (users : List User) (s : XPState) (k : Key) :
    (xpHandleKeyDown users s k).phase = s.phase ∨
    (s.phase = BootPhase.bootloader ∧
      (xpHandleKeyDown users s k).phase = BootPhase.boot) ∨
    (s.phase = BootPhase.login ∧
      (xpHandleKeyDown users s k).phase = BootPhase.loggingIn) := by
  cases hu : s.selectedUser <;>
    cases k <;>
    simp only [xpHandleKeyDown, hu] <;>
    split_ifs with h1 h2 <;>
    simp_all [handleLogin]

theorem handleUserClick_phase (s : XPState) (u : User) :
    (handleUserClick s u).phase = s.phase ∨
    (handleUserClick s u).phase = BootPhase.loggingIn := by
  unfold handleUserClick
  split_ifs <;> simp [handleLogin]

/-- C3 as stated is false: pressing Enter on the login screen with a selected
user moves the phase to `logging-in`, which is not an element of the claimed
five-phase sequence `post, bootloader, boot, login, desktop` at all — so this
Enter transition does not land on a later element of that sequence. -/
theorem c3_counterexample :
    (xpStep defaultUsers exLogin (.key .enter)).phase ≠ exLogin.phase ∧
    ¬ (xpStep defaultUsers exLogin (.key .enter)).phase ∈ claimedPhaseOrder := by
  decide

/-- C3 amended: with `logging-in` inserted between `login` and `desktop`, the
phase advances only forward through the linear order `post, bootloader, boot,
login, logging-in, desktop`: no step (timer, countdown expiry, key or click)
ever lowers the phase rank, and every step that changes the phase strictly
raises it. -/
theorem c3_phase_monotone (users : List User) (s : XPState) (e : XPEvent) :
    phaseRank s.phase ≤ phaseRank (xpStep users s e).phase ∧
    ((xpStep users s e).phase ≠ s.phase →
      phaseRank s.phase < phaseRank (xpStep users s e).phase) := by
  cases e with
  | postTransitionTimer =>
    by_cases h : s.phase = BootPhase.post
    · exact phase_conj_jump s _ (by simp [xpStep, h, phaseRank])
    · exact phase_conj_self s _ (by simp [xpStep, h])
  | memoryTick => exact phase_conj_self s _ (by simp [xpStep])
  | addLinesTimer => exact phase_conj_self s _ (by simp [xpStep])
  | countdownTick =>
    by_cases h : s.phase = BootPhase.bootloader
    · by_cases hc : s.countdown ≤ 1
      · exact phase_conj_jump s _ (by simp [xpStep, h, hc, phaseRank])
      · exact phase_conj_self s _ (by simp [xpStep, h, hc])
    · exact phase_conj_self s _ (by simp [xpStep, h])
  | bootTimer =>
    by_cases h : s.phase = BootPhase.boot
    · exact phase_conj_jump s _ (by simp [xpStep, h, phaseRank])
    · exact phase_conj_self s _ (by simp [xpStep, h])
  | loginTimer =>
    by_cases h : s.phase = BootPhase.loggingIn
    · exact phase_conj_jump s _ (by simp [xpStep, h, phaseRank])
    · exact phase_conj_self s _ (by simp [xpStep, h])
  | key k =>
    rcases xpHandleKeyDown_phase users s k with h | ⟨h1, h2⟩ | ⟨h1, h2⟩
    · exact phase_conj_self s _ h
    · exact phase_conj_jump s _ (by simp [xpStep, h1, h2, phaseRank])
    · exact phase_conj_jump s _ (by simp [xpStep, h1, h2, phaseRank])
  | clickBootOption i =>
    by_cases h : s.phase = BootPhase.bootloader ∧ i < bootOptions.length
    · exact phase_conj_jump s _ (by simp [xpStep, h.1, h.2, phaseRank])
    · exact phase_conj_self s _ (by simp [xpStep, if_neg h])
  | clickUser u =>
    by_cases h : s.phase = BootPhase.login ∨ s.phase = BootPhase.loggingIn
    · rcases handleUserClick_phase s u with hp | hp
      · exact phase_conj_self s _ (by simp [xpStep, if_pos h, hp])
      · rcases h with h | h
        · exact phase_conj_jump s _ (by simp [xpStep, if_pos (Or.inl h), hp, h, phaseRank])
        · exact phase_conj_self s _ (by simp [xpStep, if_pos (Or.inr h), hp, h])
    · exact phase_conj_self s _ (by simp [xpStep, if_neg h])

theorem c3_phase_monotone_witness :
    (xpStep defaultUsers initialXPState .postTransitionTimer).phase ≠
        initialXPState.phase ∧
    phaseRank initialXPState.phase ≤
      phaseRank (xpStep defaultUsers initialXPState .postTransitionTimer).phase ∧
    phaseRank initialXPState.phase <
      phaseRank (xpStep defaultUsers initialXPState .postTransitionTimer).phase :=
  ⟨by decide,
   (c3_phase_monotone defaultUsers initialXPState .postTransitionTimer).1,
   (c3_phase_monotone defaultUsers initialXPState .postTransitionTimer).2 (by decide)⟩

/-! ## Claim C4 -/

/-- C4 is violated by the code (the claim matches the spec's stated intent,
the code is the slip): the 2000 ms `setTimeout` scheduled inside
`handleLogin` (`part_000` line 136) is never passed to `clearTimeout` — it is
created in a callback, not in an effect with a cleanup — so it survives both
phase changes and unmount.  Concretely: after POST expires, Enter skips the
bootloader countdown, the boot timer reaches the login screen, ArrowDown
selects a user and Enter starts logging in, the timeout is pending; when the
component unmounts (Escape/`onExit`), no cleanup cancels it, and it then
fires against the unmounted component — the stale transition the claim says
cannot happen.  (`bootEntry`'s 500 ms navigation timeout in `App.tsx` lines
157–159 is equally uncancellable.) -/
theorem c4_stale_login_timer :
    (runLife defaultUsers initialXPLife (staleTrace.take 5)).mounted = true ∧
    TimerId.loginTimeout ∈
      (runLife defaultUsers initialXPLife (staleTrace.take 5)).pending ∧
    (runLife defaultUsers initialXPLife (staleTrace.take 6)).mounted = false ∧
    TimerId.loginTimeout ∈
      (runLife defaultUsers initialXPLife (staleTrace.take 6)).pending ∧
    (runLife defaultUsers initialXPLife staleTrace).staleFire = true ∧
    (runLife defaultUsers initialXPLife (staleTrace.take 5)).staleFire = false := by
  decide

/-! ## Claim C6 -/

theorem currentTheme_nil {s : AppState} (h : s.themes = []) :
    currentTheme s = none := by
  simp [currentTheme, h]

theorem appStep_no_theme {s : AppState} (h : s.themes = []) (e : AppEvent)
    (he : e.isUI = true) : appStep s e = s := by
  have hct : currentTheme s = none := currentTheme_nil h
  have hraw : appStepRaw s e = s := by
    cases e <;> simp_all [appStepRaw, AppEvent.isUI, withTheme]
  simp [appStep, hraw]

theorem runApp_no_theme {s : AppState} (h : s.themes = []) (evs : List AppEvent)
    (hui : ∀ e ∈ evs, e.isUI = true) : runApp s evs = s := by
  induction evs with
  | nil => rfl
  | cons e t ih =>
    have : appStep s e = s := appStep_no_theme h e (hui e (by simp))
    simp only [runApp, List.foldl_cons, this]
    exact ih fun x hx => hui x (by simp [hx])

/-- C6: when the config fetch or parse fails, only the status changes — it
becomes `Failed to load config`, the theme list stays empty, the app keeps
rendering the loading screen (no theme ever resolves), and no keyboard or
mouse event afterwards changes anything (there is no retry or recovery). -/
theorem c6_config_error (msg : String) (evs : List AppEvent)
    (hui : ∀ e ∈ evs, e.isUI = true) :
    loadConfigResult initialAppState (.error msg) =
      { initialAppState with status := "Failed to load config" } ∧
    runApp (loadConfigResult initialAppState (.error msg)) evs =
      loadConfigResult initialAppState (.error msg) ∧
    (runApp (loadConfigResult initialAppState (.error msg)) evs).status =
      "Failed to load config" ∧
    (runApp (loadConfigResult initialAppState (.error msg)) evs).themes = [] ∧
    currentTheme (runApp (loadConfigResult initialAppState (.error msg)) evs) =
      none := by
  have hrun : runApp (loadConfigResult initialAppState (.error msg)) evs =
      loadConfigResult initialAppState (.error msg) :=
    runApp_no_theme rfl evs hui
  refine ⟨rfl, hrun, ?_, ?_, ?_⟩ <;> rw [hrun] <;> rfl

theorem c6_config_error_witness :
    (∀ e ∈ [AppEvent.key .enter, AppEvent.clickEntry 0,
            AppEvent.key .arrowDown], e.isUI = true) ∧
    (loadConfigResult initialAppState (.error "network down") =
        { initialAppState with status := "Failed to load config" } ∧
      runApp (loadConfigResult initialAppState (.error "network down"))
          [AppEvent.key .enter, AppEvent.clickEntry 0, AppEvent.key .arrowDown] =
        loadConfigResult initialAppState (.error "network down") ∧
      (runApp (loadConfigResult initialAppState (.error "network down"))
          [AppEvent.key .enter, AppEvent.clickEntry 0,
           AppEvent.key .arrowDown]).status = "Failed to load config" ∧
      (runApp (loadConfigResult initialAppState (.error "network down"))
          [AppEvent.key .enter, AppEvent.clickEntry 0,
           AppEvent.key .arrowDown]).themes = [] ∧
      currentTheme (runApp (loadConfigResult initialAppState (.error "network down"))
          [AppEvent.key .enter, AppEvent.clickEntry 0,
           AppEvent.key .arrowDown]) = none) :=
  ⟨by decide,
   c6_config_error "network down"
     [AppEvent.key .enter, AppEvent.clickEntry 0, AppEvent.key .arrowDown]
     (by decide)⟩

/-! ## Claim C9: auxiliary lemmas -/

theorem currentTheme_mem {s : AppState} {t : Theme}
    (h : currentTheme s = some t) : t ∈ s.themes := by
  unfold currentTheme at h
  cases hf : s.themes.find? (fun x => x.id = s.themeId) with
  | none =>
    rw [hf] at h
    simp only [Option.orElse] at h
    exact List.mem_of_mem_head? (Option.mem_def.mpr h)
  | some t1 =>
    rw [hf] at h
    simp only [Option.orElse] at h
    cases h
    exact List.mem_of_find?_eq_some hf

theorem currentTheme_some {s : AppState} (h : s.themes ≠ []) :
    ∃ t, currentTheme s = some t := by
  unfold currentTheme
  cases hf : s.themes.find? (fun x => x.id = s.themeId) with
  | none =>
    simp only [Option.orElse]
    exact ⟨_, List.head?_eq_head h⟩
  | some t1 =>
    simp only [Option.orElse]
    exact ⟨t1, rfl⟩

theorem entriesOf_congr {s1 s2 : AppState} (h1 : s1.themes = s2.themes)
    (h2 : s1.themeId = s2.themeId) : entriesOf s1 = entriesOf s2 := by
  simp [entriesOf, currentTheme, h1, h2]

theorem actionsOf_congr {s1 s2 : AppState} (h1 : s1.themes = s2.themes)
    (h2 : s1.themeId = s2.themeId) : actionsOf s1 = actionsOf s2 := by
  simp [actionsOf, currentTheme, h1, h2]

theorem themeIdValid_congr {s1 s2 : AppState} (h1 : s1.themes = s2.themes)
    (h2 : s1.themeId = s2.themeId) (h : themeIdValid s2) : themeIdValid s1 := by
  rw [themeIdValid, h1, h2]
  exact h

theorem entriesOf_pos {s : AppState} (hrows : rowsNonempty s.themes) {t : Theme}
    (hct : currentTheme s = some t) : 0 < ((entriesOf s).length : Int) := by
  have hmem := currentTheme_mem hct
  have hne := (hrows t hmem).1
  have : entriesOf s = t.entries := by simp [entriesOf, hct]
  rw [this]
  exact_mod_cast List.length_pos.mpr hne

theorem actionsOf_pos {s : AppState} (hrows : rowsNonempty s.themes) {t : Theme}
    (hct : currentTheme s = some t) : 0 < ((actionsOf s).length : Int) := by
  have hmem := currentTheme_mem hct
  have hne := (hrows t hmem).2
  have : actionsOf s = t.actions := by simp [actionsOf, hct]
  rw [this]
  exact_mod_cast List.length_pos.mpr hne

theorem statusEffect_only_status (s : AppState) :
    (statusEffect s).themes = s.themes ∧ (statusEffect s).themeId = s.themeId ∧
    (statusEffect s).selectedIndex = s.selectedIndex ∧
    (statusEffect s).actionIndex = s.actionIndex ∧
    (statusEffect s).optionIndex = s.optionIndex ∧
    (statusEffect s).activeRow = s.activeRow ∧
    (statusEffect s).showOptions = s.showOptions := by
  unfold statusEffect
  cases hct : currentTheme s with
  | none => simp
  | some t =>
    cases ho : (listGetI t.entries s.selectedIndex).orElse (fun _ => t.entries.head?) with
    | none => simp [ho]
    | some e => simp only [ho]; split_ifs <;> simp

theorem statusEffect_appInv {s : AppState} (h : appInv s) :
    appInv (statusEffect s) ∧ (statusEffect s).themes = s.themes := by
  obtain ⟨hth, hid, hsel, hact, hopt, _, _⟩ := statusEffect_only_status s
  obtain ⟨hne, hrows, hval, hidx⟩ := h
  refine ⟨⟨by rw [hth]; exact hne, by rw [hth]; exact hrows,
          themeIdValid_congr hth hid hval, ?_⟩, hth⟩
  rw [indicesInRange, hsel, hact, hopt, hth,
      entriesOf_congr hth hid, actionsOf_congr hth hid]
  exact hidx

theorem resetSelectionEffect_fields {s : AppState} {t : Theme}
    (hct : currentTheme s = some t) :
    (resetSelectionEffect s).themes = s.themes ∧
    (resetSelectionEffect s).themeId = s.themeId ∧
    (resetSelectionEffect s).selectedIndex = 0 ∧
    (resetSelectionEffect s).actionIndex = 0 ∧
    (resetSelectionEffect s).optionIndex = s.optionIndex ∧
    (resetSelectionEffect s).activeRow = Row.entries ∧
    (resetSelectionEffect s).showOptions = s.showOptions := by
  unfold resetSelectionEffect
  rw [hct]
  cases he : t.entries.head? <;> simp [he]

theorem resetSelectionEffect_inv {s : AppState} (hval : themeIdValid s)
    (hne : s.themes ≠ []) (hrows : rowsNonempty s.themes)
    (hopt : 0 ≤ s.optionIndex ∧ s.optionIndex < (s.themes.length : Int)) :
    appInv (resetSelectionEffect s) ∧
    (resetSelectionEffect s).themes = s.themes := by
  obtain ⟨t, hct⟩ := currentTheme_some hne
  obtain ⟨hth, hid, hsel, hact, hopt2, _, _⟩ := resetSelectionEffect_fields hct
  refine ⟨⟨by rw [hth]; exact hne, by rw [hth]; exact hrows,
          themeIdValid_congr hth hid hval, ?_⟩, hth⟩
  rw [indicesInRange, hsel, hact, hopt2, hth,
      entriesOf_congr hth hid, actionsOf_congr hth hid]
  exact ⟨⟨le_rfl, entriesOf_pos hrows hct⟩, ⟨le_rfl, actionsOf_pos hrows hct⟩, hopt⟩

/-- Raw-step invariant for the key handler: the theme list is untouched, the
theme id stays valid, the option index stays in range, and as long as the
theme id did not change (so the rows are the same) all indices stay in range.
(When the theme id does change, the reset-selection effect reruns and
re-establishes the index bounds; see `appStep_inv`.) -/
theorem handleKey_raw_inv {s : AppState} (hinv : appInv s) (k : Key) :
    (handleKey s k).themes = s.themes ∧
    themeIdValid (handleKey s k) ∧
    (0 ≤ (handleKey s k).optionIndex ∧
      (handleKey s k).optionIndex < (s.themes.length : Int)) ∧
    ((handleKey s k).themeId = s.themeId → indicesInRange (handleKey s k)) := by
  obtain ⟨hne, hrows, hval, ⟨hsel0, hsel1⟩, ⟨hact0, hact1⟩, hopt0, hopt1⟩ := hinv
  obtain ⟨t, hct⟩ := currentTheme_some hne
  have hn : 0 < (s.themes.length : Int) := by
    exact_mod_cast List.length_pos.mpr hne
  have hepos := entriesOf_pos hrows hct
  have hapos := actionsOf_pos hrows hct
  have hfind : 0 ≤ findIndexI s.themes (fun x => x.id = s.themeId) ∧
      findIndexI s.themes (fun x => x.id = s.themeId) < (s.themes.length : Int) := by
    refine findIndexI_of_exists ?_
    obtain ⟨x, hx, hxid⟩ := hval
    exact ⟨x, hx, by simp [hxid]⟩
  unfold handleKey
  split_ifs with hso
  · -- options modal open
    cases k with
    | arrowUp =>
      exact ⟨rfl, hval, emod_bounds _ hn,
        fun _ => ⟨⟨hsel0, hsel1⟩, ⟨hact0, hact1⟩, emod_bounds _ hn⟩⟩
    | arrowDown =>
      exact ⟨rfl, hval, emod_bounds _ hn,
        fun _ => ⟨⟨hsel0, hsel1⟩, ⟨hact0, hact1⟩, emod_bounds _ hn⟩⟩
    | enter =>
      simp only [handleKeyModal]
      cases hg : listGetI s.themes s.optionIndex with
      | none =>
        exact ⟨rfl, hval, ⟨hopt0, hopt1⟩,
          fun _ => ⟨⟨hsel0, hsel1⟩, ⟨hact0, hact1⟩, hopt0, hopt1⟩⟩
      | some t1 =>
        refine ⟨rfl, ⟨t1, listGetI_mem hg, rfl⟩, ⟨hopt0, hopt1⟩, fun hid => ?_⟩
        have hth : ({ s with themeId := t1.id, showOptions := false } : AppState).themes
            = s.themes := rfl
        rw [indicesInRange, entriesOf_congr hth hid, actionsOf_congr hth hid]
        exact ⟨⟨hsel0, hsel1⟩, ⟨hact0, hact1⟩, hopt0, hopt1⟩
    | escape =>
      exact ⟨rfl, hval, ⟨hopt0, hopt1⟩,
        fun _ => ⟨⟨hsel0, hsel1⟩, ⟨hact0, hact1⟩, hopt0, hopt1⟩⟩
    | _ =>
      exact ⟨rfl, hval, ⟨hopt0, hopt1⟩,
        fun _ => ⟨⟨hsel0, hsel1⟩, ⟨hact0, hact1⟩, hopt0, hopt1⟩⟩
  · -- modal closed
    cases k with
    | arrowLeft =>
      simp only [handleKeyMain]
      split_ifs with hr
      · exact ⟨rfl, hval, ⟨hopt0, hopt1⟩,
          fun _ => ⟨emod_bounds _ hepos, ⟨hact0, hact1⟩, hopt0, hopt1⟩⟩
      · exact ⟨rfl, hval, ⟨hopt0, hopt1⟩,
          fun _ => ⟨⟨hsel0, hsel1⟩, emod_bounds _ hapos, hopt0, hopt1⟩⟩
    | arrowRight =>
      simp only [handleKeyMain]
      split_ifs with hr
      · exact ⟨rfl, hval, ⟨hopt0, hopt1⟩,
          fun _ => ⟨emod_bounds _ hepos, ⟨hact0, hact1⟩, hopt0, hopt1⟩⟩
      · exact ⟨rfl, hval, ⟨hopt0, hopt1⟩,
          fun _ => ⟨⟨hsel0, hsel1⟩, emod_bounds _ hapos, hopt0, hopt1⟩⟩
    | arrowDown =>
      simp only [handleKeyMain]
      cases hg : listGetI (actionsOf s) s.actionIndex with
      | none =>
        exact ⟨rfl, hval, ⟨hopt0, hopt1⟩,
          fun _ => ⟨⟨hsel0, hsel1⟩, ⟨hact0, hact1⟩, hopt0, hopt1⟩⟩
      | some a =>
        exact ⟨rfl, hval, ⟨hopt0, hopt1⟩,
          fun _ => ⟨⟨hsel0, hsel1⟩, ⟨hact0, hact1⟩, hopt0, hopt1⟩⟩
    | arrowUp =>
      simp only [handleKeyMain]
      cases hg : listGetI (entriesOf s) s.selectedIndex with
      | none =>
        exact ⟨rfl, hval, ⟨hopt0, hopt1⟩,
          fun _ => ⟨⟨hsel0, hsel1⟩, ⟨hact0, hact1⟩, hopt0, hopt1⟩⟩
      | some e =>
        exact ⟨rfl, hval, ⟨hopt0, hopt1⟩,
          fun _ => ⟨⟨hsel0, hsel1⟩, ⟨hact0, hact1⟩, hopt0, hopt1⟩⟩
    | enter =>
      simp only [handleKeyMain]
      split_ifs with hr
      · cases hg : listGetI (entriesOf s) s.selectedIndex with
        | none =>
          exact ⟨rfl, hval, ⟨hopt0, hopt1⟩,
            fun _ => ⟨⟨hsel0, hsel1⟩, ⟨hact0, hact1⟩, hopt0, hopt1⟩⟩
        | some e =>
          exact ⟨rfl, hval, ⟨hopt0, hopt1⟩,
            fun _ => ⟨⟨hsel0, hsel1⟩, ⟨hact0, hact1⟩, hopt0, hopt1⟩⟩
      · cases hg : listGetI (actionsOf s) s.actionIndex with
        | none =>
          exact ⟨rfl, hval, ⟨hopt0, hopt1⟩,
            fun _ => ⟨⟨hsel0, hsel1⟩, ⟨hact0, hact1⟩, hopt0, hopt1⟩⟩
        | some a =>
          simp only []
          split_ifs with ha
          · exact ⟨rfl, hval, hfind,
              fun _ => ⟨⟨hsel0, hsel1⟩, ⟨hact0, hact1⟩, hfind⟩⟩
          · exact ⟨rfl, hval, ⟨hopt0, hopt1⟩,
              fun _ => ⟨⟨hsel0, hsel1⟩, ⟨hact0, hact1⟩, hopt0, hopt1⟩⟩
    | escape =>
      exact ⟨rfl, hval, ⟨hopt0, hopt1⟩,
        fun _ => ⟨⟨hsel0, hsel1⟩, ⟨hact0, hact1⟩, hopt0, hopt1⟩⟩
    | other =>
      exact ⟨rfl, hval, ⟨hopt0, hopt1⟩,
        fun _ => ⟨⟨hsel0, hsel1⟩, ⟨hact0, hact1⟩, hopt0, hopt1⟩⟩

/-- Raw-step invariant for every keyboard and mouse event. -/
theorem appStepRaw_inv {s : AppState} (hinv : appInv s) (e : AppEvent)
    (he : e.isUI = true) :
    (appStepRaw s e).themes = s.themes ∧
    themeIdValid (appStepRaw s e) ∧
    (0 ≤ (appStepRaw s e).optionIndex ∧
      (appStepRaw s e).optionIndex < (s.themes.length : Int)) ∧
    ((appStepRaw s e).themeId = s.themeId → indicesInRange (appStepRaw s e)) := by
  obtain ⟨hne, hrows, hval, ⟨hsel0, hsel1⟩, ⟨hact0, hact1⟩, hopt0, hopt1⟩ := hinv
  obtain ⟨t, hct⟩ := currentTheme_some hne
  have hfind : 0 ≤ findIndexI s.themes (fun x => x.id = s.themeId) ∧
      findIndexI s.themes (fun x => x.id = s.themeId) < (s.themes.length : Int) := by
    refine findIndexI_of_exists ?_
    obtain ⟨x, hx, hxid⟩ := hval
    exact ⟨x, hx, by simp [hxid]⟩
  cases e with
  | key k =>
    simp only [appStepRaw, withTheme, hct]
    exact handleKey_raw_inv
      ⟨hne, hrows, hval, ⟨hsel0, hsel1⟩, ⟨hact0, hact1⟩, hopt0, hopt1⟩ k
  | clickEntry i =>
    simp only [appStepRaw, withTheme, hct]
    split_ifs with hi
    · have hilt : (i : Int) < ((entriesOf s).length : Int) := by exact_mod_cast hi
      exact ⟨rfl, hval, ⟨hopt0, hopt1⟩,
        fun _ => ⟨⟨Int.ofNat_nonneg i, hilt⟩, ⟨hact0, hact1⟩, hopt0, hopt1⟩⟩
    · exact ⟨rfl, hval, ⟨hopt0, hopt1⟩,
        fun _ => ⟨⟨hsel0, hsel1⟩, ⟨hact0, hact1⟩, hopt0, hopt1⟩⟩
  | dblClickEntry i =>
    simp only [appStepRaw, withTheme, hct]
    cases hg : (entriesOf s).get? i with
    | none =>
      exact ⟨rfl, hval, ⟨hopt0, hopt1⟩,
        fun _ => ⟨⟨hsel0, hsel1⟩, ⟨hact0, hact1⟩, hopt0, hopt1⟩⟩
    | some e1 =>
      exact ⟨rfl, hval, ⟨hopt0, hopt1⟩,
        fun _ => ⟨⟨hsel0, hsel1⟩, ⟨hact0, hact1⟩, hopt0, hopt1⟩⟩
  | clickAction i =>
    simp only [appStepRaw, withTheme, hct]
    cases hg : (actionsOf s).get? i with
    | none =>
      exact ⟨rfl, hval, ⟨hopt0, hopt1⟩,
        fun _ => ⟨⟨hsel0, hsel1⟩, ⟨hact0, hact1⟩, hopt0, hopt1⟩⟩
    | some a =>
      obtain ⟨hiN, -⟩ := List.get?_eq_some.mp hg
      have hilt : (i : Int) < ((actionsOf s).length : Int) := by exact_mod_cast hiN
      simp only []
      split_ifs with ha
      · exact ⟨rfl, hval, hfind,
          fun _ => ⟨⟨hsel0, hsel1⟩, ⟨Int.ofNat_nonneg i, hilt⟩, hfind⟩⟩
      · exact ⟨rfl, hval, ⟨hopt0, hopt1⟩,
          fun _ => ⟨⟨hsel0, hsel1⟩, ⟨Int.ofNat_nonneg i, hilt⟩, hopt0, hopt1⟩⟩
  | clickOption i =>
    simp only [appStepRaw, withTheme, hct]
    cases hg : s.themes.get? i with
    | none =>
      exact ⟨rfl, hval, ⟨hopt0, hopt1⟩,
        fun _ => ⟨⟨hsel0, hsel1⟩, ⟨hact0, hact1⟩, hopt0, hopt1⟩⟩
    | some t1 =>
      refine ⟨rfl, ⟨t1, List.get?_mem hg, rfl⟩, ⟨hopt0, hopt1⟩, fun hid => ?_⟩
      have hth : ({ s with themeId := t1.id, showOptions := false } : AppState).themes
          = s.themes := rfl
      rw [indicesInRange, entriesOf_congr hth hid, actionsOf_congr hth hid]
      exact ⟨⟨hsel0, hsel1⟩, ⟨hact0, hact1⟩, hopt0, hopt1⟩
  | clickOverlay =>
    simp only [appStepRaw, withTheme, hct]
    exact ⟨by simp, hval, ⟨hopt0, hopt1⟩,
      fun _ => ⟨⟨hsel0, hsel1⟩, ⟨hact0, hact1⟩, hopt0, hopt1⟩⟩
  | configOk data => simp [AppEvent.isUI] at he
  | configErr msg => simp [AppEvent.isUI] at he

/-- A full `appStep` (raw event plus re-run effects) preserves the invariant
and the theme list. -/
theorem appStep_inv {s : AppState} (hinv : appInv s) (e : AppEvent)
    (he : e.isUI = true) :
    appInv (appStep s e) ∧ (appStep s e).themes = s.themes := by
  obtain ⟨hth, hval, hopt, hidx⟩ := appStepRaw_inv hinv e he
  obtain ⟨hne, hrows, -, -⟩ := hinv
  have hne1 : (appStepRaw s e).themes ≠ [] := by rw [hth]; exact hne
  have hrows1 : rowsNonempty (appStepRaw s e).themes := by rw [hth]; exact hrows
  have hopt1 : 0 ≤ (appStepRaw s e).optionIndex ∧
      (appStepRaw s e).optionIndex < (((appStepRaw s e).themes.length : Nat) : Int) := by
    rw [hth]; exact hopt
  have hreset := resetSelectionEffect_inv hval hne1 hrows1 hopt1
  simp only [appStep]
  split_ifs with hch hc2 hc3
  · exact ⟨(statusEffect_appInv hreset.1).1,
      by rw [(statusEffect_appInv hreset.1).2, hreset.2, hth]⟩
  · exact ⟨hreset.1, by rw [hreset.2, hth]⟩
  · have hid : (appStepRaw s e).themeId = s.themeId := by
      push_neg at hch
      exact hch.1
    have hinv1 : appInv (appStepRaw s e) := ⟨hne1, hrows1, hval, hidx hid⟩
    exact ⟨(statusEffect_appInv hinv1).1, by rw [(statusEffect_appInv hinv1).2, hth]⟩
  · have hid : (appStepRaw s e).themeId = s.themeId := by
      push_neg at hch
      exact hch.1
    exact ⟨⟨hne1, hrows1, hval, hidx hid⟩, hth⟩

theorem runApp_inv {s : AppState} (hinv : appInv s) (evs : List AppEvent)
    (hui : ∀ e ∈ evs, e.isUI = true) : appInv (runApp s evs) := by
  induction evs generalizing s with
  | nil => exact hinv
  | cons e t ih =>
    simp only [runApp, List.foldl_cons]
    exact ih (appStep_inv hinv e (hui e (by simp))).1
      (fun x hx => hui x (by simp [hx]))

theorem loadConfigSuccess_fields (s : AppState) (data : Config) :
    (loadConfigSuccess s data).themes = buildThemes data ∧
    (loadConfigSuccess s data).themeId = defaultIdOf data ∧
    (loadConfigSuccess s data).selectedIndex = s.selectedIndex ∧
    (loadConfigSuccess s data).actionIndex = s.actionIndex ∧
    (loadConfigSuccess s data).optionIndex = s.optionIndex ∧
    (loadConfigSuccess s data).activeRow = s.activeRow ∧
    (loadConfigSuccess s data).showOptions = s.showOptions := by
  simp only [loadConfigSuccess]
  split <;> split <;> simp_all [defaultIdOf]

/-- `appStep` establishes the invariant from raw-level facts alone (used both
for UI events and for the config-load event, whose raw step replaces the
theme list). -/
theorem appStep_inv_entry {s : AppState} (e : AppEvent)
    (hne1 : (appStepRaw s e).themes ≠ [])
    (hrows1 : rowsNonempty (appStepRaw s e).themes)
    (hval : themeIdValid (appStepRaw s e))
    (hopt1 : 0 ≤ (appStepRaw s e).optionIndex ∧
      (appStepRaw s e).optionIndex < (((appStepRaw s e).themes.length : Nat) : Int))
    (hidx : (appStepRaw s e).themeId = s.themeId ∧
        (appStepRaw s e).themes.length = s.themes.length →
      indicesInRange (appStepRaw s e)) :
    appInv (appStep s e) := by
  have hreset := resetSelectionEffect_inv hval hne1 hrows1 hopt1
  simp only [appStep]
  split_ifs with hch hc2 hc3
  · exact (statusEffect_appInv hreset.1).1
  · exact hreset.1
  · push_neg at hch
    exact (statusEffect_appInv ⟨hne1, hrows1, hval, hidx hch⟩).1
  · push_neg at hch
    exact ⟨hne1, hrows1, hval, hidx hch⟩

/-- After a successful load of a config with nonempty rows and a default
theme id that names a built theme, the invariant holds. -/
theorem appInv_loaded {cfg : Config} (hne : buildThemes cfg ≠ [])
    (hrows : rowsNonempty (buildThemes cfg))
    (hval : ∃ t ∈ buildThemes cfg, t.id = defaultIdOf cfg) :
    appInv (appStep initialAppState (.configOk cfg)) := by
  obtain ⟨hth, hid, hsel, hact, hopt, -, -⟩ :=
    loadConfigSuccess_fields initialAppState cfg
  have hraw : appStepRaw initialAppState (AppEvent.configOk cfg) =
      loadConfigSuccess initialAppState cfg := rfl
  have h00 : initialAppState.optionIndex = 0 := rfl
  have h0len : initialAppState.themes.length = 0 := rfl
  refine appStep_inv_entry (AppEvent.configOk cfg) ?_ ?_ ?_ ?_ ?_
  · rw [hraw, hth]; exact hne
  · rw [hraw, hth]; exact hrows
  · rw [themeIdValid, hraw, hth, hid]; exact hval
  · rw [hraw, hopt, hth, h00]
    exact ⟨le_rfl, by exact_mod_cast List.length_pos.mpr hne⟩
  · intro hcond
    exfalso
    have hlen := hcond.2
    rw [hraw, hth, h0len] at hlen
    have := List.length_pos.mpr hne
    omega

theorem xpHandleKeyDown_bootloaderIndex (users : List User) (s : XPState)
    (k : Key) :
    (xpHandleKeyDown users s k).bootloaderIndex = s.bootloaderIndex ∨
    (xpHandleKeyDown users s k).bootloaderIndex =
      (s.bootloaderIndex - 1 + (bootOptions.length : Int)) %
        (bootOptions.length : Int) ∨
    (xpHandleKeyDown users s k).bootloaderIndex =
      (s.bootloaderIndex + 1) % (bootOptions.length : Int) := by
  cases hu : s.selectedUser <;>
    cases k <;>
    simp only [xpHandleKeyDown, hu] <;>
    split_ifs with h1 h2 <;>
    simp_all [handleLogin]

/-- One XP step keeps the bootloader option index in `[0, 3)`. -/
theorem xpStep_bootloaderIndex {users : List User} {s : XPState}
    (h : 0 ≤ s.bootloaderIndex ∧
      s.bootloaderIndex < (bootOptions.length : Int)) (e : XPEvent) :
    0 ≤ (xpStep users s e).bootloaderIndex ∧
      (xpStep users s e).bootloaderIndex < (bootOptions.length : Int) := by
  have h3 : 0 < (bootOptions.length : Int) := by norm_num [bootOptions]
  cases e with
  | postTransitionTimer => unfold xpStep; split_ifs <;> exact h
  | memoryTick => exact h
  | addLinesTimer => exact h
  | countdownTick => unfold xpStep; split_ifs <;> exact h
  | bootTimer => unfold xpStep; split_ifs <;> exact h
  | loginTimer => unfold xpStep; split_ifs <;> exact h
  | key k =>
    have hk : xpStep users s (.key k) = xpHandleKeyDown users s k := rfl
    rw [hk]
    rcases xpHandleKeyDown_bootloaderIndex users s k with hb | hb | hb <;> rw [hb]
    · exact h
    · exact emod_bounds _ h3
    · exact emod_bounds _ h3
  | clickBootOption i =>
    have hk : xpStep users s (.clickBootOption i) =
        if s.phase = BootPhase.bootloader ∧ i < bootOptions.length then
          { s with bootloaderIndex := (i : Int), phase := .boot }
        else s := rfl
    rw [hk]
    split_ifs with hcond
    · have hilt : (i : Int) < (bootOptions.length : Int) := by
        exact_mod_cast hcond.2
      exact ⟨Int.ofNat_nonneg i, hilt⟩
    · exact h
  | clickUser u =>
    have hk : xpStep users s (.clickUser u) =
        if s.phase = BootPhase.login ∨ s.phase = BootPhase.loggingIn then
          handleUserClick s u
        else s := rfl
    rw [hk]
    unfold handleUserClick handleLogin
    split_ifs <;> exact h

theorem runXP_bootloaderIndex {users : List User} {s : XPState}
    (h : 0 ≤ s.bootloaderIndex ∧
      s.bootloaderIndex < (bootOptions.length : Int)) (xevs : List XPEvent) :
    0 ≤ (runXP users s xevs).bootloaderIndex ∧
      (runXP users s xevs).bootloaderIndex < (bootOptions.length : Int) := by
  induction xevs generalizing s with
  | nil => exact h
  | cons e t ih =>
    simp only [runXP, List.foldl_cons]
    exact ih (xpStep_bootloaderIndex h e)

/-- C9 as stated is false: `badCfg` builds a single theme with nonempty rows
(two entries, six actions), yet its `defaultTheme` (`"missing"`) names no
theme of the built list, so from the initial selection a single in-range
click on the `options` action (index 3) opens the modal with
`optionIndex = findIndex(...) = -1`, outside `[0, 1)`. -/
theorem c9_counterexample :
    (∀ t ∈ buildThemes badCfg, t.entries ≠ [] ∧ t.actions ≠ []) ∧
    buildThemes badCfg ≠ [] ∧
    (appStep initialAppState (.configOk badCfg)).selectedIndex = 0 ∧
    (appStep initialAppState (.configOk badCfg)).activeRow = Row.entries ∧
    (runApp (appStep initialAppState (.configOk badCfg))
      [.clickAction 3]).showOptions = true ∧
    (runApp (appStep initialAppState (.configOk badCfg))
      [.clickAction 3]).optionIndex = -1 := by
  decide

/-- C9 amended: provided additionally that the applied default theme id
(`defaultTheme`, or `'classic'` when that is empty) names a theme of the
built list, every sequence of keyboard and click events starting from the
post-load state (index 0, entries row active) keeps `selectedIndex`,
`actionIndex` and `optionIndex` inside `[0, length of their rows)`, and every
XP event sequence keeps `bootloaderIndex` inside `[0, 3)`; the
`(i ± 1 + n) % n` arithmetic never leaves the range.  (Without the
default-theme condition, opening the options modal stores `findIndex`'s `-1`
— see the counterexample.) -/
theorem c9_indices_in_range (cfg : Config) (evs : List AppEvent)
    (hne : buildThemes cfg ≠ [])
    (hrows : rowsNonempty (buildThemes cfg))
    (hval : ∃ t ∈ buildThemes cfg, t.id = defaultIdOf cfg)
    (hui : ∀ e ∈ evs, e.isUI = true)
    (users : List User) (xevs : List XPEvent) :
    indicesInRange (runApp (appStep initialAppState (.configOk cfg)) evs) ∧
    (0 ≤ (runXP users initialXPState xevs).bootloaderIndex ∧
      (runXP users initialXPState xevs).bootloaderIndex <
        (bootOptions.length : Int)) := by
  constructor
  · exact (runApp_inv (appInv_loaded hne hrows hval) evs hui).2.2.2
  · exact runXP_bootloaderIndex ⟨le_rfl, by decide⟩ xevs

theorem c9_indices_in_range_witness :
    (buildThemes exCfg ≠ [] ∧
      (∀ t ∈ buildThemes exCfg, t.entries ≠ [] ∧ t.actions ≠ []) ∧
      (∃ t ∈ buildThemes exCfg, t.id = defaultIdOf exCfg) ∧
      (∀ e ∈ [AppEvent.key Key.arrowRight, AppEvent.key Key.arrowDown,
              AppEvent.key Key.enter], e.isUI = true)) ∧
    (indicesInRange (runApp (appStep initialAppState (.configOk exCfg))
        [AppEvent.key Key.arrowRight, AppEvent.key Key.arrowDown,
         AppEvent.key Key.enter]) ∧
      (0 ≤ (runXP defaultUsers initialXPState
          [.postTransitionTimer, .key .arrowUp]).bootloaderIndex ∧
        (runXP defaultUsers initialXPState
          [.postTransitionTimer, .key .arrowUp]).bootloaderIndex <
          (bootOptions.length : Int))) :=
  ⟨⟨by decide, by decide, by decide, by decide⟩,
   c9_indices_in_range exCfg
     [AppEvent.key Key.arrowRight, AppEvent.key Key.arrowDown,
      AppEvent.key Key.enter]
     (by decide) (by unfold rowsNonempty; decide) (by decide) (by decide)
     defaultUsers [.postTransitionTimer, .key .arrowUp]⟩

end Bootloader
